import Mathlib

/-!
# Road damage report form (`Landing Page/report.js`)

A shallow embedding of the `ReportForm` controller: the location selector, the
form validator, the preview / confirm lifecycle and the local report store.

Modelling conventions.

* JavaScript numbers are exact rationals (`ℚ`); `NaN` and the infinities are not
  values of the model.  `Math.sqrt` is a parameter `sqrt : ℚ → ℚ` of every
  definition that reaches `reverseGeocode`, so nothing is assumed about how the
  square root is rounded.
* DOM input controls are the record `FormData` of their current `value`s.
* The `roadDamageReports` slot of `localStorage` holds the *value* that was
  serialised; `JSON.parse (JSON.stringify v) = v` for the records of strings and
  finite numbers stored here, so serialisation is the identity of the model.
* Template literals that build HTML are kept as lists of `(label, value)` rows.
* Each `showMessage` call is recorded in the list `messages`; the timers that
  remove the message element again are not modelled.
* Every form control and both modal elements exist on the page.
* Not modelled: the authentication poll and redirect of `checkAuth`, the image
  previews of `handleFileUpload`, and the listeners that leave the page
  (`viewReport`, `newReport`, `logoutLink`).
-/

namespace RoadMonitor

/-! ## Library functions of the JavaScript runtime -/

/-- Decimal digits of a non-negative integer, least significant first; `fuel`
bounds the number of digits produced. -/
def digitsLSB : Nat → Nat → List Nat
  | 0, _ => []
  | fuel + 1, n => if n < 10 then [n] else (n % 10) :: digitsLSB fuel (n / 10)

/-- Model of `Number.prototype.toString()` on a non-negative integer: its decimal
numeral, most significant digit first. -/
def numberToString (n : Nat) : String :=
  String.mk ((digitsLSB (n + 1) n).reverse.map Nat.digitChar)

/-- Model of `String.prototype.slice(-k)`: the last `k` characters, or the whole
string when it is shorter. -/
def sliceFromEnd (s : String) (k : Nat) : String :=
  String.mk (s.data.drop (s.data.length - k))

/-- Model of `field.replace(/([A-Z])/g, ' $1').toLowerCase()`: a blank is put in
front of every capital letter `A`..`Z`, then the text is lowercased (letters
outside ASCII, which no field name has, are left as they are). -/
def humanize (field : String) : String :=
  String.mk ((field.data.flatMap fun c => if 'A' ≤ c ∧ c ≤ 'Z' then [' ', c] else [c]).map
    Char.toLower)

/-- Model of `Number.prototype.toFixed(fractionDigits)` for `|x| < 10^21` (above
that bound JavaScript switches to exponent notation, which is not modelled): the
nearest integer `n` to `|x| * 10^fractionDigits` (the larger one on a tie) is
written in decimal, left-padded with zeros, and split by a decimal point. -/
def toFixed (x : ℚ) (fractionDigits : Nat) : String :=
  let n : Nat := (Rat.floor (|x| * 10 ^ fractionDigits + 1 / 2)).toNat
  let m := (numberToString n).data
  let m := if m.length ≤ fractionDigits then
      List.replicate (fractionDigits + 1 - m.length) '0' ++ m else m
  let k := m.length
  let body := if fractionDigits = 0 then m
    else m.take (k - fractionDigits) ++ '.' :: m.drop (k - fractionDigits)
  String.mk ((if x < 0 then ['-'] else []) ++ body)

/-! ## Data model -/

/-- A map coordinate `{lat, lng}` in degrees. -/
structure LatLng where
  lat : ℚ
  lng : ℚ
deriving DecidableEq

/-- The keys of the object returned by `getFormData`. -/
inductive Field
  | damageType
  | priority
  | location
  | coordinates
  | description
  | reporterName
  | reporterEmail
  | reporterPhone
  | estimatedSize
deriving DecidableEq

/-- The JavaScript property name of a form key. -/
def Field.name : Field → String
  | .damageType => "damageType"
  | .priority => "priority"
  | .location => "location"
  | .coordinates => "coordinates"
  | .description => "description"
  | .reporterName => "reporterName"
  | .reporterEmail => "reporterEmail"
  | .reporterPhone => "reporterPhone"
  | .estimatedSize => "estimatedSize"

/-- The record read from the form controls (`getFormData`), which is also the
state of the controls themselves. -/
structure FormData where
  damageType : String
  priority : String
  location : String
  coordinates : String
  description : String
  reporterName : String
  reporterEmail : String
  reporterPhone : String
  estimatedSize : String
deriving DecidableEq

/-- Property read `data[field]`. -/
def FormData.get (data : FormData) : Field → String
  | .damageType => data.damageType
  | .priority => data.priority
  | .location => data.location
  | .coordinates => data.coordinates
  | .description => data.description
  | .reporterName => data.reporterName
  | .reporterEmail => data.reporterEmail
  | .reporterPhone => data.reporterPhone
  | .estimatedSize => data.estimatedSize

/-- Assignment `document.getElementById(field).value = v`. -/
def FormData.set (data : FormData) (field : Field) (v : String) : FormData :=
  match field with
  | .damageType => { data with damageType := v }
  | .priority => { data with priority := v }
  | .location => { data with location := v }
  | .coordinates => { data with coordinates := v }
  | .description => { data with description := v }
  | .reporterName => { data with reporterName := v }
  | .reporterEmail => { data with reporterEmail := v }
  | .reporterPhone => { data with reporterPhone := v }
  | .estimatedSize => { data with estimatedSize := v }

/-- Every one of the five required fields `damageType`, `priority`, `location`,
`description`, `reporterName` holds a non-empty string. -/
def FormData.complete (data : FormData) : Prop :=
  data.damageType ≠ "" ∧ data.priority ≠ "" ∧ data.location ≠ "" ∧
    data.description ≠ "" ∧ data.reporterName ≠ ""

instance (data : FormData) : Decidable data.complete := by
  unfold FormData.complete
  infer_instance

/-- The object literal built in `submitReport`: `id`, the nine spread form keys
with `coordinates` overridden by the selected point, `status`, `date`,
`reporter`. -/
structure Report where
  id : String
  damageType : String
  priority : String
  location : String
  coordinates : LatLng
  description : String
  reporterName : String
  reporterEmail : String
  reporterPhone : String
  estimatedSize : String
  status : String
  date : String
  reporter : String
deriving DecidableEq

/-- The result of a property read on a report object. -/
inductive JSValue
  | undefined
  | string (s : String)
  | object (p : LatLng)
deriving DecidableEq

/-- Property read `report[key]`: the thirteen keys of the literal of
`submitReport` are defined, every other key reads `undefined`. -/
def Report.prop (r : Report) (key : String) : JSValue :=
  if key = "id" then .string r.id
  else if key = "damageType" then .string r.damageType
  else if key = "priority" then .string r.priority
  else if key = "location" then .string r.location
  else if key = "coordinates" then .object r.coordinates
  else if key = "description" then .string r.description
  else if key = "reporterName" then .string r.reporterName
  else if key = "reporterEmail" then .string r.reporterEmail
  else if key = "reporterPhone" then .string r.reporterPhone
  else if key = "estimatedSize" then .string r.estimatedSize
  else if key = "status" then .string r.status
  else if key = "date" then .string r.date
  else if key = "reporter" then .string r.reporter
  else .undefined

/-- Text that a template literal substitutes for a value. -/
def JSValue.interpolate : JSValue → String
  | .undefined => "undefined"
  | .string s => s
  | .object _ => "[object Object]"

/-- Content bound to a marker by `bindPopup`: the heading and the labelled
rows of the HTML template. -/
structure Popup where
  heading : String
  rows : List (String × String)
deriving DecidableEq

/-- A Leaflet marker layer.  `uid` is the identity of the JavaScript object. -/
structure Marker where
  uid : Nat
  latlng : LatLng
  className : String
  popup : Option Popup
deriving DecidableEq

/-- The layers currently on the Leaflet map and the next free object identity. -/
structure LeafletMap where
  layers : List Marker
  nextUid : Nat
deriving DecidableEq

/-- Model of `L.marker(latlng, ...).addTo(map)` followed by an optional
`bindPopup`: a fresh marker is appended to the layers and returned. -/
def LeafletMap.addMarker (m : LeafletMap) (latlng : LatLng) (className : String)
    (popup : Option Popup) : Marker × LeafletMap :=
  let marker : Marker :=
    { uid := m.nextUid, latlng := latlng, className := className, popup := popup }
  (marker, { layers := m.layers ++ [marker], nextUid := m.nextUid + 1 })

/-- Model of `map.removeLayer(marker)`: the layer that is this object goes. -/
def LeafletMap.removeLayer (m : LeafletMap) (marker : Marker) : LeafletMap :=
  { m with layers := m.layers.filter fun l => l.uid ≠ marker.uid }

/-- The state of one `ReportForm` instance together with the page it controls. -/
structure ReportForm where
  map : LeafletMap
  selectedLocation : Option LatLng
  locationMarker : Option Marker
  fields : FormData
  localStorage : Option (List Report)
  previewModal : Bool
  successModal : Bool
  previewContent : List (String × String)
  reportSummary : List (String × String)
  messages : List (String × String)
deriving DecidableEq

/-- What the environment answers during one `submitReport`: `Date.now()`,
`new Date().toISOString()`, `new Date().toLocaleString()` and
`window.auth.getCurrentUser()`. -/
structure Env where
  now : Nat
  isoString : String
  localeString : String
  currentUser : String
deriving DecidableEq

/-! ## Operations of `ReportForm` -/

/-- The array `required` of `validateFormData`. -/
def required : List Field :=
  [.damageType, .priority, .location, .description, .reporterName]

/-- Reference latitude `-0.8966` of `reverseGeocode`. -/
def baseLat : ℚ := -8966 / 10000

/-- Reference longitude `119.8756` of `reverseGeocode`. -/
def baseLng : ℚ := 1198756 / 10000

/-- The local `distance` of `reverseGeocode`:
`Math.sqrt(Math.pow(lat - baseLat, 2) + Math.pow(lng - baseLng, 2))`. -/
def distance (sqrt : ℚ → ℚ) (latlng : LatLng) : ℚ :=
  sqrt ((latlng.lat - baseLat) ^ 2 + (latlng.lng - baseLng) ^ 2)

/-- The function `reverseGeocode`: thresholds `0.01`, `0.02`, `0.03`. -/
def reverseGeocode (sqrt : ℚ → ℚ) (latlng : LatLng) : String :=
  if distance sqrt latlng < 1 / 100 then "Jl. Sudirman, Palu"
  else if distance sqrt latlng < 2 / 100 then "Jl. Ahmad Yani, Palu"
  else if distance sqrt latlng < 3 / 100 then "Jl. Gatot Subroto, Palu"
  else "Jl. Palu IV, Palu"

namespace ReportForm

/-- The method `getExistingReports`: an absent slot reads as the empty array. -/
def getExistingReports (s : ReportForm) : List Report :=
  match s.localStorage with
  | some storedReports => storedReports
  | none => []

/-- The popup template of `addExistingReports`, which reads `report.type`,
`report.priority` and `report.status`. -/
def existingReportPopup (report : Report) : Popup :=
  { heading := "Existing Report"
    rows := [("Type:", (report.prop "type").interpolate),
             ("Priority:", (report.prop "priority").interpolate),
             ("Status:", (report.prop "status").interpolate)] }

/-- The method `addExistingReports`: one marker per stored report. -/
def addExistingReports (s : ReportForm) : ReportForm :=
  s.getExistingReports.foldl
    (fun st report =>
      { st with map := (st.map.addMarker report.coordinates "existing-report-marker"
          (some (existingReportPopup report))).2 })
    s

/-- The method `selectLocation`. -/
def selectLocation (sqrt : ℚ → ℚ) (s : ReportForm) (latlng : LatLng) : ReportForm :=
  let map1 := match s.locationMarker with
    | some old => s.map.removeLayer old
    | none => s.map
  let added := map1.addMarker latlng "selected-location-marker" none
  let fields1 := { s.fields with
    coordinates := toFixed latlng.lat 6 ++ ", " ++ toFixed latlng.lng 6 }
  let fields2 := if fields1.location = "" then
      { fields1 with location := reverseGeocode sqrt latlng } else fields1
  { s with map := added.2, locationMarker := some added.1, fields := fields2,
           selectedLocation := some latlng }

/-- The method `showMessage`: the message and its type are recorded. -/
def showMessage (s : ReportForm) (message type : String) : ReportForm :=
  { s with messages := s.messages ++ [(message, type)] }

/-- The method `getFormData`. -/
def getFormData (s : ReportForm) : FormData :=
  s.fields

/-- The `for (const field of required)` loop of `validateFormData`: `some` is
the state in which the loop returned `false`, `none` means it ran to the end. -/
def validateRequired (s : ReportForm) (data : FormData) : List Field → Option ReportForm
  | [] => none
  | field :: rest =>
    if data.get field = "" then
      some (s.showMessage ("Please fill in the " ++ humanize field.name ++ " field") "error")
    else validateRequired s data rest

/-- The method `validateFormData`: its boolean result and the state it leaves. -/
def validateFormData (s : ReportForm) (data : FormData) : Bool × ReportForm :=
  match validateRequired s data required with
  | some s1 => (false, s1)
  | none =>
    if s.selectedLocation.isNone then
      (false, s.showMessage "Please select a location on the map" "error")
    else (true, s)

/-- The rows of the preview template of `showPreview`. -/
def previewRows (formData : FormData) : List (String × String) :=
  [("Damage Type:", formData.damageType),
   ("Priority:", formData.priority),
   ("Location:", formData.location),
   ("Coordinates:", formData.coordinates),
   ("Description:", formData.description),
   ("Reporter:", formData.reporterName),
   ("Email:", if formData.reporterEmail = "" then "Not provided" else formData.reporterEmail),
   ("Phone:", if formData.reporterPhone = "" then "Not provided" else formData.reporterPhone),
   ("Estimated Size:",
     if formData.estimatedSize = "" then "Not specified" else formData.estimatedSize)]

/-- The method `showPreview`. -/
def showPreview (s : ReportForm) : ReportForm :=
  let formData := s.getFormData
  match s.validateFormData formData with
  | (false, s1) => s1
  | (true, s1) => { s1 with previewContent := previewRows formData, previewModal := true }

/-- The method `handleFormSubmission`. -/
def handleFormSubmission (s : ReportForm) : ReportForm :=
  s.showPreview

/-- The method `saveReport`: read the array, push, write it back. -/
def saveReport (s : ReportForm) (report : Report) : ReportForm :=
  let existingReports := s.getExistingReports
  { s with localStorage := some (existingReports ++ [report]) }

/-- The method `showSuccessModal`. -/
def showSuccessModal (s : ReportForm) (report : Report) (env : Env) : ReportForm :=
  { s with
    reportSummary := [("Report ID:", report.id),
                      ("Location:", report.location),
                      ("Damage Type:", report.damageType),
                      ("Priority:", report.priority),
                      ("Submitted:", env.localeString)]
    successModal := true }

/-- The report object literal of `submitReport`. -/
def buildReport (formData : FormData) (selected : LatLng) (env : Env) : Report :=
  { id := "RPT-" ++ sliceFromEnd (numberToString env.now) 6
    damageType := formData.damageType
    priority := formData.priority
    location := formData.location
    coordinates := selected
    description := formData.description
    reporterName := formData.reporterName
    reporterEmail := formData.reporterEmail
    reporterPhone := formData.reporterPhone
    estimatedSize := formData.estimatedSize
    status := "reported"
    date := env.isoString
    reporter := env.currentUser }

/-- The method `submitReport`.  After a passed validation `selectedLocation` is
a point; the branch for an absent one is never taken
(`validateFormData_true_selected`). -/
def submitReport (s : ReportForm) (env : Env) : ReportForm :=
  let formData := s.getFormData
  match s.validateFormData formData with
  | (false, s1) => s1
  | (true, s1) =>
    match s1.selectedLocation with
    | none => s1
    | some selected =>
      let report := buildReport formData selected env
      let s2 := s1.saveReport report
      let s3 := s2.showSuccessModal report env
      { s3 with previewModal := false }

end ReportForm

/-! ## Page load and events -/

/-- Modelled from the spec: the page markup and style sheet, which decide whether
a modal view is visible before any script runs, are not part of the source; the
workflow starts in `Idle`, that is with both modal views hidden. -/
def initialModalShown : Bool := false

/-- What the page supplies when `new ReportForm()` runs: the initial values of
the controls, the stored slot, the parsed `coords` query parameter and the
authenticated user. -/
structure PageLoad where
  fields : FormData
  stored : Option (List Report)
  coords : Option LatLng
  currentUser : String

/-- The constructor with `init`: `initializeLocationMap` (a new map, then
`addExistingReports`) and `loadFormData` (a `coords` parameter selects a
location, a non-empty current user fills `reporterName`).  `checkAuth` and
`setupEventListeners` change nothing in the modelled state; the listeners
themselves are `ReportForm.step`. -/
def ReportForm.init (sqrt : ℚ → ℚ) (page : PageLoad) : ReportForm :=
  let s0 : ReportForm :=
    { map := { layers := [], nextUid := 0 }
      selectedLocation := none
      locationMarker := none
      fields := page.fields
      localStorage := page.stored
      previewModal := initialModalShown
      successModal := initialModalShown
      previewContent := []
      reportSummary := []
      messages := [] }
  let s1 := s0.addExistingReports
  let s2 := match page.coords with
    | some latlng => s1.selectLocation sqrt latlng
    | none => s1
  if page.currentUser = "" then s2
  else { s2 with fields := { s2.fields with reporterName := page.currentUser } }

/-- The element a click on the window lands on. -/
inductive ClickTarget
  | previewModal
  | successModal
  | other
deriving DecidableEq

/-- The user events the listeners of `setupEventListeners`, `setupModalControls`
and `initializeLocationMap` react to, and typing into a form control. -/
inductive Event
  | mapClick (latlng : LatLng)
  | input (field : Field) (value : String)
  | previewClick
  | formSubmit
  | previewClose
  | successClose
  | editReport
  | confirmSubmit (env : Env)
  | windowClick (target : ClickTarget)

/-- The listener that runs on an event. -/
def ReportForm.step (sqrt : ℚ → ℚ) (s : ReportForm) : Event → ReportForm
  | .mapClick latlng => s.selectLocation sqrt latlng
  | .input field value => { s with fields := s.fields.set field value }
  | .previewClick => s.showPreview
  | .formSubmit => s.handleFormSubmission
  | .previewClose => { s with previewModal := false }
  | .successClose => { s with successModal := false }
  | .editReport => { s with previewModal := false }
  | .confirmSubmit env => s.submitReport env
  | .windowClick .previewModal => { s with previewModal := false }
  | .windowClick .successModal => { s with successModal := false }
  | .windowClick .other => s

/-- The state after a page load followed by a sequence of events. -/
def ReportForm.run (sqrt : ℚ → ℚ) (page : PageLoad) (events : List Event) : ReportForm :=
  events.foldl (ReportForm.step sqrt) (ReportForm.init sqrt page)

/-- The three lifecycle states of the controller. -/
inductive Lifecycle
  | Idle
  | Previewing
  | ConfirmedSubmitted
deriving DecidableEq

/-- The lifecycle state read off the two modal views: the success view shown is
`ConfirmedSubmitted`, otherwise the preview view shown is `Previewing`. -/
def ReportForm.lifecycle (s : ReportForm) : Lifecycle :=
  if s.successModal then .ConfirmedSubmitted
  else if s.previewModal then .Previewing
  else .Idle

/-- A rational approximation of the square root (twelve decimals), used to run
the model on concrete points. -/
def sqrtApprox (x : ℚ) : ℚ :=
  (Nat.sqrt (Rat.floor (x * 10 ^ 24)).toNat : ℚ) / 10 ^ 12

/-- The parts of the state outside the map, its marker and the form controls. -/
def ReportForm.rest (s : ReportForm) :
    Option (List Report) × Bool × Bool × List (String × String) × List (String × String) ×
      List (String × String) :=
  (s.localStorage, s.previewModal, s.successModal, s.previewContent, s.reportSummary,
    s.messages)

/-! ## Sample inputs -/

/-- The form of the worked example of the specification. -/
def sampleForm : FormData :=
  { damageType := "pothole", priority := "high", location := "Jl. Sudirman",
    coordinates := "", description := "large pothole", reporterName := "Alice",
    reporterEmail := "", reporterPhone := "", estimatedSize := "" }

/-- A freshly loaded page with the sample form, an empty store and no `coords`. -/
def samplePage : PageLoad :=
  { fields := sampleForm, stored := none, coords := none, currentUser := "Alice" }

/-- A point within `0.01` of the reference point. -/
def samplePoint : LatLng := { lat := -897 / 1000, lng := 119876 / 1000 }

/-- A clock and user reading. -/
def sampleEnv : Env :=
  { now := 1700000123456, isoString := "2023-11-14T22:15:23.456Z",
    localeString := "11/14/2023, 10:15:23 PM", currentUser := "Alice" }

/-- A second clock reading, exactly `1000000` milliseconds after the first. -/
def sampleEnvLater : Env :=
  { sampleEnv with now := 1700001123456 }

/-- A third clock reading, one millisecond after the first. -/
def sampleEnvNext : Env :=
  { sampleEnv with now := 1700000123457 }

/-- The sample run: select the sample point, preview, confirm. -/
def sampleSubmitted : ReportForm :=
  ReportForm.run sqrtApprox samplePage
    [.mapClick samplePoint, .previewClick, .confirmSubmit sampleEnv]

/-- The page loaded again on the store that the sample run left behind. -/
def sampleReload : ReportForm :=
  ReportForm.init sqrtApprox { samplePage with stored := sampleSubmitted.localStorage }

/-- The sample page right after load: nothing selected, both views hidden. -/
def sampleIdle : ReportForm :=
  ReportForm.init sqrtApprox samplePage

/-- The sample form with the description left empty. -/
def sampleNoDescription : FormData :=
  { sampleForm with description := "" }

/-- The sample page after a click on the map at the sample point. -/
def sampleSelected : ReportForm :=
  ReportForm.run sqrtApprox samplePage [.mapClick samplePoint]

/-! ## Validation -/

theorem complete_iff_required (data : FormData) :
    data.complete ↔ ∀ f ∈ required, data.get f ≠ "" := by
  simp [FormData.complete, required, FormData.get]

theorem validateRequired_none_iff (s : ReportForm) (data : FormData) (l : List Field) :
    s.validateRequired data l = none ↔ ∀ f ∈ l, data.get f ≠ "" := by
  induction l with
  | nil => simp [ReportForm.validateRequired]
  | cons g rest ih =>
    by_cases h : data.get g = ""
    · simp [ReportForm.validateRequired, h]
    · simp [ReportForm.validateRequired, h, ih]

theorem validateRequired_first (s : ReportForm) (data : FormData) (pre : List Field)
    (f : Field) (post : List Field) (hpre : ∀ g ∈ pre, data.get g ≠ "")
    (hf : data.get f = "") :
    s.validateRequired data (pre ++ f :: post) =
      some (s.showMessage ("Please fill in the " ++ humanize f.name ++ " field") "error") := by
  induction pre with
  | nil => simp [ReportForm.validateRequired, hf]
  | cons g rest ih =>
    have hg : data.get g ≠ "" := hpre g (List.mem_cons_self g rest)
    have hrest : ∀ x ∈ rest, data.get x ≠ "" := fun x hx => hpre x (List.mem_cons_of_mem g hx)
    simp [ReportForm.validateRequired, hg, ih hrest]

theorem validateRequired_some (s : ReportForm) (data : FormData) (l : List Field)
    (s1 : ReportForm) (h : s.validateRequired data l = some s1) :
    ∃ f ∈ l, data.get f = "" ∧
      s1 = s.showMessage ("Please fill in the " ++ humanize f.name ++ " field") "error" := by
  induction l with
  | nil => simp [ReportForm.validateRequired] at h
  | cons g rest ih =>
    by_cases hg : data.get g = ""
    · simp [ReportForm.validateRequired, hg] at h
      exact ⟨g, List.mem_cons_self g rest, hg, h.symm⟩
    · simp [ReportForm.validateRequired, hg] at h
      obtain ⟨f, hf, he, hs⟩ := ih h
      exact ⟨f, List.mem_cons_of_mem g hf, he, hs⟩

theorem validateFormData_true_iff (s : ReportForm) (data : FormData) :
    (s.validateFormData data).1 = true ↔ data.complete ∧ s.selectedLocation ≠ none := by
  rw [complete_iff_required, ← validateRequired_none_iff s data required]
  unfold ReportForm.validateFormData
  cases hreq : s.validateRequired data required with
  | some s1 => simp
  | none =>
    cases hsel : s.selectedLocation <;> simp

theorem validateFormData_true_state (s : ReportForm) (data : FormData)
    (h : (s.validateFormData data).1 = true) : s.validateFormData data = (true, s) := by
  unfold ReportForm.validateFormData at h ⊢
  cases hreq : s.validateRequired data required with
  | some s1 => simp [hreq] at h
  | none =>
    cases hsel : s.selectedLocation with
    | none => simp [hreq, hsel] at h
    | some p => simp

theorem validateFormData_true_selected (s : ReportForm) (data : FormData)
    (h : (s.validateFormData data).1 = true) : ∃ p, s.selectedLocation = some p := by
  have h2 := ((validateFormData_true_iff s data).1 h).2
  cases hsel : s.selectedLocation with
  | none => exact absurd hsel h2
  | some p => exact ⟨p, rfl⟩

theorem validateFormData_false_state (s : ReportForm) (data : FormData)
    (h : (s.validateFormData data).1 = false) :
    ∃ msg, s.validateFormData data = (false, s.showMessage msg "error") := by
  unfold ReportForm.validateFormData at h ⊢
  cases hreq : s.validateRequired data required with
  | some s1 =>
    obtain ⟨f, _, _, hs⟩ := validateRequired_some s data required s1 hreq
    refine ⟨"Please fill in the " ++ humanize f.name ++ " field", ?_⟩
    simp [hs]
  | none =>
    cases hsel : s.selectedLocation with
    | none =>
      refine ⟨"Please select a location on the map", ?_⟩
      simp
    | some p => simp [hreq, hsel] at h

theorem validateFormData_first_missing (s : ReportForm) (data : FormData)
    (pre : List Field) (f : Field) (post : List Field)
    (hsplit : required = pre ++ f :: post) (hpre : ∀ g ∈ pre, data.get g ≠ "")
    (hf : data.get f = "") :
    s.validateFormData data =
      (false, { s with messages := s.messages ++
        [("Please fill in the " ++ humanize f.name ++ " field", "error")] }) := by
  unfold ReportForm.validateFormData
  rw [hsplit, validateRequired_first s data pre f post hpre hf]
  rfl

theorem humanize_required_names :
    required.map (fun f => humanize f.name) =
      ["damage type", "priority", "location", "description", "reporter name"] := by
  decide

theorem submitReport_persists_only_valid_aux (s : ReportForm) (env : Env)
    (hinv : ¬ (s.fields.complete ∧ ∃ p, s.selectedLocation = some p)) :
    ∃ msg, s.submitReport env = s.showMessage msg "error" := by
  have hfalse : (s.validateFormData s.fields).1 = false := by
    cases hv : (s.validateFormData s.fields).1 with
    | false => rfl
    | true =>
      obtain ⟨p, hp⟩ := validateFormData_true_selected s s.fields hv
      exact absurd ⟨((validateFormData_true_iff s s.fields).1 hv).1, p, hp⟩ hinv
  obtain ⟨msg, hm⟩ := validateFormData_false_state s s.fields hfalse
  exact ⟨msg, by simp [ReportForm.submitReport, ReportForm.getFormData, hm]⟩

/-- C1: `submitReport` changes the stored collection only if the five required
fields are non-empty and a location is selected; otherwise the slot and the
collection read from it are unchanged, no report is built, and the only effect
is one `error` message. -/
theorem submitReport_persists_only_valid (s : ReportForm) (env : Env) :
    ((s.submitReport env).localStorage ≠ s.localStorage →
      s.fields.complete ∧ ∃ p, s.selectedLocation = some p) ∧
    (¬ (s.fields.complete ∧ ∃ p, s.selectedLocation = some p) →
      (s.submitReport env).localStorage = s.localStorage ∧
      (s.submitReport env).getExistingReports = s.getExistingReports ∧
      ∃ msg, s.submitReport env = s.showMessage msg "error") := by
  have key := submitReport_persists_only_valid_aux s env
  constructor
  · intro hchg
    by_contra hinv
    obtain ⟨msg, hm⟩ := key hinv
    exact hchg (by rw [hm]; rfl)
  · intro hinv
    obtain ⟨msg, hm⟩ := key hinv
    exact ⟨by rw [hm]; rfl, by rw [hm]; rfl, msg, hm⟩

/-- C1, at a concrete input: on the freshly loaded sample page no location is
selected, and a confirm leaves the store as it was. -/
theorem submitReport_persists_only_valid_witness :
    ¬ (sampleIdle.fields.complete ∧ ∃ p, sampleIdle.selectedLocation = some p) ∧
    (sampleIdle.submitReport sampleEnv).localStorage = sampleIdle.localStorage :=
  have h : ¬ (sampleIdle.fields.complete ∧ ∃ p, sampleIdle.selectedLocation = some p) := by
    rintro ⟨_, p, hp⟩
    have hnone : sampleIdle.selectedLocation = none := by decide
    rw [hnone] at hp
    cases hp
  ⟨h, ((submitReport_persists_only_valid sampleIdle sampleEnv).2 h).1⟩

/-- C3, as stated, fails: with an empty description and the other required
fields filled, the message has ONE blank in front of `description`, so it is not
the text with two blanks. -/
theorem description_message_counterexample :
    sampleNoDescription.description = "" ∧ sampleNoDescription.damageType ≠ "" ∧
    sampleNoDescription.priority ≠ "" ∧ sampleNoDescription.location ≠ "" ∧
    (sampleIdle.validateFormData sampleNoDescription).1 = false ∧
    (sampleIdle.validateFormData sampleNoDescription).2.messages =
      [("Please fill in the description field", "error")] ∧
    (sampleIdle.validateFormData sampleNoDescription).2.messages ≠
      sampleIdle.messages ++ [("Please fill in the  description field", "error")] := by
  decide

/-- C3, amended: for every form record whose description is empty and whose
damageType, priority and location are non-empty, validation fails and the one
message emitted is exactly `Please fill in the description field`. -/
theorem description_message (s : ReportForm) (data : FormData)
    (hd : data.description = "") (h1 : data.damageType ≠ "") (h2 : data.priority ≠ "")
    (h3 : data.location ≠ "") :
    s.validateFormData data =
      (false, { s with messages := s.messages ++
        [("Please fill in the description field", "error")] }) := by
  have h := validateFormData_first_missing s data
    [Field.damageType, Field.priority, Field.location] Field.description [Field.reporterName]
    rfl (by simp [FormData.get, h1, h2, h3]) hd
  rw [h]
  have hh : humanize Field.description.name = "description" := by decide
  rw [hh]
  rfl

/-- C3 amended, at a concrete input. -/
theorem description_message_witness :
    sampleIdle.validateFormData sampleNoDescription =
      (false, { sampleIdle with messages := sampleIdle.messages ++
        [("Please fill in the description field", "error")] }) :=
  description_message sampleIdle sampleNoDescription (by decide) (by decide) (by decide)
    (by decide)

/-! ## Reverse lookup -/

theorem getExistingReports_foldl_saveReport (prior : List Report) (s0 : ReportForm) :
    (prior.foldl ReportForm.saveReport s0).getExistingReports =
      s0.getExistingReports ++ prior := by
  induction prior generalizing s0 with
  | nil => simp
  | cons r rest ih =>
    rw [List.foldl_cons, ih]
    simp [ReportForm.saveReport, ReportForm.getExistingReports]

/-- C5: for the store reached from any state by any sequence of prior appends
(an absent slot reads as the empty sequence), `saveReport r` followed by
`getExistingReports` returns the previous collection, in the same order, with `r`
added as last element, so one element longer; `saveReport` touches nothing but
the slot.  In the model `getExistingReports` is a function of the state that
returns no new state, so reading changes nothing. -/
theorem saveReport_getExistingReports (s0 : ReportForm) (prior : List Report) (r : Report) :
    (s0.localStorage = none → s0.getExistingReports = []) ∧
    (prior.foldl ReportForm.saveReport s0).getExistingReports =
      s0.getExistingReports ++ prior ∧
    ((prior.foldl ReportForm.saveReport s0).saveReport r).getExistingReports =
      (prior.foldl ReportForm.saveReport s0).getExistingReports ++ [r] ∧
    ((prior.foldl ReportForm.saveReport s0).saveReport r).getExistingReports.length =
      (prior.foldl ReportForm.saveReport s0).getExistingReports.length + 1 ∧
    ((prior.foldl ReportForm.saveReport s0).saveReport r).getExistingReports.getLast? =
      some r ∧
    ((prior.foldl ReportForm.saveReport s0).saveReport r).getExistingReports.take
        (prior.foldl ReportForm.saveReport s0).getExistingReports.length =
      (prior.foldl ReportForm.saveReport s0).getExistingReports ∧
    (prior.foldl ReportForm.saveReport s0).saveReport r =
      { prior.foldl ReportForm.saveReport s0 with
        localStorage := some ((prior.foldl ReportForm.saveReport s0).getExistingReports ++
          [r]) } := by
  have h : ∀ s : ReportForm, (s.saveReport r).getExistingReports =
      s.getExistingReports ++ [r] := by
    intro s
    simp [ReportForm.saveReport, ReportForm.getExistingReports]
  refine ⟨?_, getExistingReports_foldl_saveReport prior s0, h _, ?_, ?_, ?_, rfl⟩
  · intro hnone
    simp [ReportForm.getExistingReports, hnone]
  · rw [h]; simp
  · rw [h]; simp
  · rw [h]; simp

/-- C5, at a concrete input: the sample page starts with an absent slot, which
reads as the empty sequence. -/
theorem saveReport_getExistingReports_witness :
    sampleIdle.localStorage = none ∧ sampleIdle.getExistingReports = [] :=
  ⟨by decide,
    (saveReport_getExistingReports sampleIdle []
      (ReportForm.buildReport sampleForm samplePoint sampleEnv)).1 (by decide)⟩

/-! ## Report identifiers -/

theorem digitsLSB_lt_ten (fuel n : Nat) : ∀ d ∈ digitsLSB fuel n, d < 10 := by
  induction fuel generalizing n with
  | zero => simp [digitsLSB]
  | succ f ih =>
    intro d hd
    unfold digitsLSB at hd
    split_ifs at hd with h
    · simp at hd
      omega
    · rcases List.mem_cons.1 hd with h1 | h1
      · omega
      · exact ih _ d h1

theorem ofDigits_take_digitsLSB (k : Nat) :
    ∀ fuel n : Nat, n < fuel → Nat.ofDigits 10 ((digitsLSB fuel n).take k) = n % 10 ^ k := by
  induction k with
  | zero =>
    intro fuel n _
    simp [Nat.mod_one]
  | succ k ih =>
    intro fuel n hn
    cases fuel with
    | zero => omega
    | succ f =>
      unfold digitsLSB
      split_ifs with h
      · have hlt : n < 10 ^ (k + 1) :=
          lt_of_lt_of_le h (by
            calc 10 = 10 ^ 1 := by norm_num
              _ ≤ 10 ^ (k + 1) := Nat.pow_le_pow_right (by norm_num) (by omega))
        simp [Nat.ofDigits_cons, Nat.mod_eq_of_lt hlt]
      · have hdiv : n / 10 < f := by omega
        rw [List.take_succ_cons, Nat.ofDigits_cons, ih f (n / 10) hdiv, pow_succ',
          Nat.mod_mul]

theorem digitChar_inj_of_lt (a b : Nat) (ha : a < 10) (hb : b < 10)
    (h : Nat.digitChar a = Nat.digitChar b) : a = b := by
  have key : ∀ x : Fin 10, ∀ y : Fin 10,
      Nat.digitChar x.val = Nat.digitChar y.val → x = y := by decide
  have := key ⟨a, ha⟩ ⟨b, hb⟩ h
  exact congrArg Fin.val this

theorem map_digitChar_inj (l1 : List Nat) :
    ∀ l2 : List Nat, (∀ d ∈ l1, d < 10) → (∀ d ∈ l2, d < 10) →
      l1.map Nat.digitChar = l2.map Nat.digitChar → l1 = l2 := by
  induction l1 with
  | nil =>
    intro l2 _ _ h
    cases l2 with
    | nil => rfl
    | cons b t => simp at h
  | cons a t ih =>
    intro l2 h1 h2 h
    cases l2 with
    | nil => simp at h
    | cons b t2 =>
      simp only [List.map_cons, List.cons.injEq] at h
      have hab := digitChar_inj_of_lt a b (h1 a (List.mem_cons_self a t))
        (h2 b (List.mem_cons_self b t2)) h.1
      have ht := ih t2 (fun d hd => h1 d (List.mem_cons_of_mem a hd))
        (fun d hd => h2 d (List.mem_cons_of_mem b hd)) h.2
      rw [hab, ht]

theorem sliceFromEnd_numberToString (n k : Nat) :
    sliceFromEnd (numberToString n) k =
      String.mk ((((digitsLSB (n + 1) n).take k).reverse).map Nat.digitChar) := by
  unfold sliceFromEnd numberToString
  simp only [List.length_map, List.length_reverse]
  rw [← List.map_drop, ← List.reverse_take]

theorem sliceFromEnd_eq_imp_mod_eq (a b : Nat)
    (h : sliceFromEnd (numberToString a) 6 = sliceFromEnd (numberToString b) 6) :
    a % 10 ^ 6 = b % 10 ^ 6 := by
  rw [sliceFromEnd_numberToString, sliceFromEnd_numberToString] at h
  have h1 := congrArg String.data h
  simp only at h1
  rw [List.map_reverse, List.map_reverse] at h1
  have h2 := List.reverse_injective h1
  have h3 := map_digitChar_inj _ _
    (fun d hd => digitsLSB_lt_ten _ _ d (List.mem_of_mem_take hd))
    (fun d hd => digitsLSB_lt_ten _ _ d (List.mem_of_mem_take hd)) h2
  rw [← ofDigits_take_digitsLSB 6 (a + 1) a (Nat.lt_succ_self a),
    ← ofDigits_take_digitsLSB 6 (b + 1) b (Nat.lt_succ_self b), h3]

theorem take_digitsLSB_of_le (k : Nat) :
    ∀ fuel n : Nat, n < fuel → 10 ^ k ≤ n →
      (digitsLSB fuel n).take (k + 1) = (List.range (k + 1)).map fun i => n / 10 ^ i % 10 := by
  induction k with
  | zero =>
    intro fuel n hn _
    cases fuel with
    | zero => omega
    | succ f =>
      unfold digitsLSB
      split_ifs with h
      · simp [List.range_succ, Nat.mod_eq_of_lt h]
      · simp [List.range_succ]
  | succ k ih =>
    intro fuel n hn hk
    cases fuel with
    | zero => omega
    | succ f =>
      have h10 : 10 ≤ n := by
        calc 10 = 10 ^ 1 := by norm_num
          _ ≤ 10 ^ (k + 1) := Nat.pow_le_pow_right (by norm_num) (by omega)
          _ ≤ n := hk
      have hk2 : 10 ^ k ≤ n / 10 := by
        rw [Nat.le_div_iff_mul_le (by norm_num)]
        rw [pow_succ] at hk
        exact hk
      unfold digitsLSB
      rw [if_neg (by omega), List.take_succ_cons, ih f (n / 10) (by omega) hk2,
        List.range_succ_eq_map (k + 1)]
      simp only [List.map_cons, List.map_map, pow_zero, Nat.div_one]
      congr 1
      apply List.map_congr_left
      intro i _
      simp only [Function.comp, Nat.succ_eq_add_one, pow_succ, Nat.div_div_eq_div_mul]
      rw [mul_comm]

theorem sliceFromEnd_six_digits (n : Nat) (h : 100000 ≤ n) :
    sliceFromEnd (numberToString n) 6 =
      String.mk [Nat.digitChar (n / 100000 % 10), Nat.digitChar (n / 10000 % 10),
        Nat.digitChar (n / 1000 % 10), Nat.digitChar (n / 100 % 10),
        Nat.digitChar (n / 10 % 10), Nat.digitChar (n % 10)] := by
  rw [sliceFromEnd_numberToString, take_digitsLSB_of_le 5 (n + 1) n (Nat.lt_succ_self n) h]
  simp [List.range_succ]

theorem string_append_left_cancel (a b c : String) (h : a ++ b = a ++ c) : b = c := by
  have h1 : (a ++ b).data = (a ++ c).data := by rw [h]
  rw [String.data_append, String.data_append] at h1
  exact String.ext (List.append_cancel_left h1)

theorem submitReport_valid (s : ReportForm) (env : Env) (p : LatLng)
    (hc : s.fields.complete) (hp : s.selectedLocation = some p) :
    s.submitReport env =
      { (s.saveReport (ReportForm.buildReport s.fields p env)).showSuccessModal
          (ReportForm.buildReport s.fields p env) env with previewModal := false } := by
  have hv : (s.validateFormData s.fields).1 = true :=
    (validateFormData_true_iff s s.fields).2 ⟨hc, by simp [hp]⟩
  have hs := validateFormData_true_state s s.fields hv
  simp [ReportForm.submitReport, ReportForm.getFormData, hs, hp]

theorem submitReport_valid_reports (s : ReportForm) (env : Env) (p : LatLng)
    (hc : s.fields.complete) (hp : s.selectedLocation = some p) :
    (s.submitReport env).getExistingReports =
      s.getExistingReports ++ [ReportForm.buildReport s.fields p env] := by
  rw [submitReport_valid s env p hc hp]
  simp [ReportForm.showSuccessModal, ReportForm.saveReport, ReportForm.getExistingReports]

theorem mod_ne_of_close (a b : Nat) (hne : a ≠ b) (h1 : a < b + 1000000)
    (h2 : b < a + 1000000) : a % 1000000 ≠ b % 1000000 := by
  omega

/-- C7: for a form with the five required fields filled, a selected point `p`,
a user and a timestamp `t`, `submitReport` appends exactly one report as the last
element of the collection: its id is `RPT-` followed by the last six characters
of the decimal numeral of `t` (for `t ≥ 100000` these are the six decimal digits
of `t mod 10^6`), its status is `reported`, its reporter is the user, its
coordinates are `p` (not the coordinates text of the form), and the other eight
fields are the form values; the success view is shown and the preview hidden. -/
theorem submitReport_appends_report (s : ReportForm) (env : Env) (p : LatLng)
    (hc : s.fields.complete) (hp : s.selectedLocation = some p) :
    (s.submitReport env).getExistingReports =
      s.getExistingReports ++
        [{ id := "RPT-" ++ sliceFromEnd (numberToString env.now) 6
           damageType := s.fields.damageType
           priority := s.fields.priority
           location := s.fields.location
           coordinates := p
           description := s.fields.description
           reporterName := s.fields.reporterName
           reporterEmail := s.fields.reporterEmail
           reporterPhone := s.fields.reporterPhone
           estimatedSize := s.fields.estimatedSize
           status := "reported"
           date := env.isoString
           reporter := env.currentUser }] ∧
    (100000 ≤ env.now →
      sliceFromEnd (numberToString env.now) 6 =
        String.mk [Nat.digitChar (env.now / 100000 % 10), Nat.digitChar (env.now / 10000 % 10),
          Nat.digitChar (env.now / 1000 % 10), Nat.digitChar (env.now / 100 % 10),
          Nat.digitChar (env.now / 10 % 10), Nat.digitChar (env.now % 10)]) ∧
    (s.submitReport env).successModal = true ∧
    (s.submitReport env).previewModal = false := by
  refine ⟨?_, sliceFromEnd_six_digits env.now, ?_, ?_⟩
  · rw [submitReport_valid_reports s env p hc hp]
    rfl
  · rw [submitReport_valid s env p hc hp]
    rfl
  · rw [submitReport_valid s env p hc hp]

/-- C7, at a concrete input: the sample form with the sample point selected,
confirmed at time `1700000123456`, stores one report with id `RPT-123456`. -/
theorem submitReport_appends_report_witness :
    sampleSelected.fields.complete ∧ sampleSelected.selectedLocation = some samplePoint ∧
    (sampleSelected.submitReport sampleEnv).getExistingReports =
      [{ id := "RPT-123456"
         damageType := "pothole"
         priority := "high"
         location := "Jl. Sudirman"
         coordinates := samplePoint
         description := "large pothole"
         reporterName := "Alice"
         reporterEmail := ""
         reporterPhone := ""
         estimatedSize := ""
         status := "reported"
         date := "2023-11-14T22:15:23.456Z"
         reporter := "Alice" }] :=
  ⟨by decide, rfl,
    (submitReport_appends_report sampleSelected sampleEnv samplePoint (by decide) rfl).1.trans
      (by
        have h1 : sampleSelected.getExistingReports = [] := by decide
        have h2 : sliceFromEnd (numberToString sampleEnv.now) 6 = "123456" := by decide
        rw [h1, h2]
        rfl)⟩

/-- C6, as stated, fails: two confirm actions of the same form at the different
timestamps `1700000123456` and `1700001123456` (one million milliseconds apart)
both succeed and store two reports with the same id `RPT-123456`. -/
theorem distinct_ids_counterexample :
    sampleEnv.now ≠ sampleEnvLater.now ∧
    ((ReportForm.run sqrtApprox samplePage
        [.mapClick samplePoint, .previewClick, .confirmSubmit sampleEnv, .successClose,
         .previewClick, .confirmSubmit sampleEnvLater]).getExistingReports.map Report.id =
      ["RPT-123456", "RPT-123456"]) := by
  decide

/-- C6, amended: two successful confirm actions performed at timestamps whose
last six decimal digits differ (`t1 mod 10^6 ≠ t2 mod 10^6`) produce reports
with distinct ids, whatever the form contents. -/
theorem distinct_ids_of_distinct_suffix (s1 s2 : ReportForm) (env1 env2 : Env)
    (p1 p2 : LatLng) (r1 r2 : Report)
    (hc1 : s1.fields.complete) (hp1 : s1.selectedLocation = some p1)
    (hc2 : s2.fields.complete) (hp2 : s2.selectedLocation = some p2)
    (hne : env1.now % 1000000 ≠ env2.now % 1000000)
    (hr1 : (s1.submitReport env1).getExistingReports.getLast? = some r1)
    (hr2 : (s2.submitReport env2).getExistingReports.getLast? = some r2) :
    r1.id ≠ r2.id := by
  rw [submitReport_valid_reports s1 env1 p1 hc1 hp1] at hr1
  rw [submitReport_valid_reports s2 env2 p2 hc2 hp2] at hr2
  rw [List.getLast?_concat, Option.some.injEq] at hr1 hr2
  subst hr1 hr2
  intro hid
  have h := string_append_left_cancel _ _ _ hid
  exact hne (sliceFromEnd_eq_imp_mod_eq env1.now env2.now h)

/-- C6 amended, at a concrete input: the same form confirmed at `1700000123456`
and one millisecond later. -/
theorem distinct_ids_of_distinct_suffix_witness :
    sampleEnv.now % 1000000 ≠ sampleEnvNext.now % 1000000 ∧
    (ReportForm.buildReport sampleForm samplePoint sampleEnv).id ≠
      (ReportForm.buildReport sampleForm samplePoint sampleEnvNext).id :=
  ⟨by decide,
    distinct_ids_of_distinct_suffix sampleSelected sampleSelected sampleEnv sampleEnvNext
      samplePoint samplePoint _ _ (by decide) rfl (by decide) rfl (by decide)
      (by rw [submitReport_valid_reports sampleSelected sampleEnv samplePoint (by decide) rfl]
          simp
          rfl)
      (by rw [submitReport_valid_reports sampleSelected sampleEnvNext samplePoint (by decide) rfl]
          simp
          rfl)⟩

/-! ## Location selector -/

theorem toFixed_examples :
    toFixed (-8966 / 10000) 6 = "-0.896600" ∧ toFixed (1198756 / 10000) 6 = "119.875600" ∧
    toFixed (-1 / 10000000) 6 = "-0.000000" ∧ toFixed (5 / 10000000) 6 = "0.000001" ∧
    toFixed (1234567 / 2) 0 = "617284" ∧ toFixed 0 6 = "0.000000" := by
  with_unfolding_all decide

theorem showPreview_cases (s : ReportForm) :
    (∃ msg, s.showPreview = s.showMessage msg "error") ∨
    s.showPreview =
      { s with previewContent := ReportForm.previewRows s.fields, previewModal := true } := by
  cases hv : (s.validateFormData s.fields).1 with
  | false =>
    obtain ⟨msg, hm⟩ := validateFormData_false_state s s.fields hv
    exact Or.inl ⟨msg, by simp [ReportForm.showPreview, ReportForm.getFormData, hm]⟩
  | true =>
    have hs := validateFormData_true_state s s.fields hv
    exact Or.inr (by simp [ReportForm.showPreview, ReportForm.getFormData, hs])

theorem submitReport_cases (s : ReportForm) (env : Env) :
    (∃ msg, s.submitReport env = s.showMessage msg "error") ∨
    ∃ p, s.fields.complete ∧ s.selectedLocation = some p ∧
      s.submitReport env =
        { (s.saveReport (ReportForm.buildReport s.fields p env)).showSuccessModal
            (ReportForm.buildReport s.fields p env) env with previewModal := false } := by
  by_cases hvalid : s.fields.complete ∧ ∃ p, s.selectedLocation = some p
  · obtain ⟨hc, p, hp⟩ := hvalid
    exact Or.inr ⟨p, hc, hp, submitReport_valid s env p hc hp⟩
  · exact Or.inl ((submitReport_persists_only_valid_aux s env hvalid))

theorem showPreview_valid (s : ReportForm)
    (hvalid : s.fields.complete ∧ ∃ p, s.selectedLocation = some p) :
    s.showPreview =
      { s with previewContent := ReportForm.previewRows s.fields, previewModal := true } := by
  obtain ⟨hc, p, hp⟩ := hvalid
  have hv : (s.validateFormData s.fields).1 = true :=
    (validateFormData_true_iff s s.fields).2 ⟨hc, by simp [hp]⟩
  have hs := validateFormData_true_state s s.fields hv
  simp [ReportForm.showPreview, ReportForm.getFormData, hs]

theorem showPreview_invalid (s : ReportForm)
    (hinv : ¬ (s.fields.complete ∧ ∃ p, s.selectedLocation = some p)) :
    ∃ msg, s.showPreview = s.showMessage msg "error" := by
  have hfalse : (s.validateFormData s.fields).1 = false := by
    cases hv : (s.validateFormData s.fields).1 with
    | false => rfl
    | true =>
      obtain ⟨p, hp⟩ := validateFormData_true_selected s s.fields hv
      exact absurd ⟨((validateFormData_true_iff s s.fields).1 hv).1, p, hp⟩ hinv
  obtain ⟨msg, hm⟩ := validateFormData_false_state s s.fields hfalse
  exact ⟨msg, by simp [ReportForm.showPreview, ReportForm.getFormData, hm]⟩

theorem lifecycle_idle_iff (s : ReportForm) :
    s.lifecycle = Lifecycle.Idle ↔ s.successModal = false ∧ s.previewModal = false := by
  unfold ReportForm.lifecycle
  cases s.successModal <;> cases s.previewModal <;> simp

theorem lifecycle_previewing_iff (s : ReportForm) :
    s.lifecycle = Lifecycle.Previewing ↔ s.successModal = false ∧ s.previewModal = true := by
  unfold ReportForm.lifecycle
  cases s.successModal <;> cases s.previewModal <;> simp

theorem showPreview_from_idle (s : ReportForm) (hidle : s.lifecycle = Lifecycle.Idle) :
    (s.showPreview.lifecycle = Lifecycle.Previewing ↔
      s.fields.complete ∧ ∃ p, s.selectedLocation = some p) ∧
    (s.showPreview.previewModal = true ↔
      s.fields.complete ∧ ∃ p, s.selectedLocation = some p) ∧
    (¬ (s.fields.complete ∧ ∃ p, s.selectedLocation = some p) →
      s.showPreview.lifecycle = Lifecycle.Idle ∧ s.showPreview.previewModal = false ∧
      ∃ msg, s.showPreview = { s with messages := s.messages ++ [(msg, "error")] }) := by
  obtain ⟨hs, hp⟩ := (lifecycle_idle_iff s).1 hidle
  by_cases hvalid : s.fields.complete ∧ ∃ p, s.selectedLocation = some p
  · have h := showPreview_valid s hvalid
    refine ⟨⟨fun _ => hvalid, fun _ => ?_⟩, ⟨fun _ => hvalid, fun _ => ?_⟩,
      fun hn => absurd hvalid hn⟩
    · rw [h, lifecycle_previewing_iff]
      exact ⟨hs, rfl⟩
    · rw [h]
  · obtain ⟨msg, h⟩ := showPreview_invalid s hvalid
    have hl : s.showPreview.lifecycle = Lifecycle.Idle := by
      rw [h, lifecycle_idle_iff]
      exact ⟨hs, hp⟩
    have hpm : s.showPreview.previewModal = false := by
      rw [h]
      exact hp
    refine ⟨⟨fun hprev => ?_, fun hv => absurd hv hvalid⟩,
      ⟨fun hshown => ?_, fun hv => absurd hv hvalid⟩, fun _ => ⟨hl, hpm, msg, h⟩⟩
    · rw [hl] at hprev
      cases hprev
    · rw [hpm] at hshown
      cases hshown

theorem step_success_shown (sqrt : ℚ → ℚ) (s : ReportForm) (e : Event)
    (hbefore : s.successModal = false) (hafter : (s.step sqrt e).successModal = true) :
    ∃ env, e = Event.confirmSubmit env ∧
      s.fields.complete ∧ ∃ p, s.selectedLocation = some p := by
  cases e with
  | mapClick latlng =>
    have h : (s.step sqrt (Event.mapClick latlng)).successModal = s.successModal := rfl
    rw [h, hbefore] at hafter
    cases hafter
  | input field value =>
    have h : (s.step sqrt (Event.input field value)).successModal = s.successModal := rfl
    rw [h, hbefore] at hafter
    cases hafter
  | previewClick =>
    have h : (s.step sqrt Event.previewClick).successModal = s.successModal := by
      rcases showPreview_cases s with ⟨msg, h⟩ | h
      · rw [show s.step sqrt Event.previewClick = s.showPreview from rfl, h]
        rfl
      · rw [show s.step sqrt Event.previewClick = s.showPreview from rfl, h]
    rw [h, hbefore] at hafter
    cases hafter
  | formSubmit =>
    have h : (s.step sqrt Event.formSubmit).successModal = s.successModal := by
      rcases showPreview_cases s with ⟨msg, h⟩ | h
      · rw [show s.step sqrt Event.formSubmit = s.showPreview from rfl, h]
        rfl
      · rw [show s.step sqrt Event.formSubmit = s.showPreview from rfl, h]
    rw [h, hbefore] at hafter
    cases hafter
  | previewClose =>
    have h : (s.step sqrt Event.previewClose).successModal = s.successModal := rfl
    rw [h, hbefore] at hafter
    cases hafter
  | successClose =>
    have h : (s.step sqrt Event.successClose).successModal = false := rfl
    rw [h] at hafter
    cases hafter
  | editReport =>
    have h : (s.step sqrt Event.editReport).successModal = s.successModal := rfl
    rw [h, hbefore] at hafter
    cases hafter
  | confirmSubmit env =>
    rcases submitReport_cases s env with ⟨msg, h⟩ | ⟨p, hc, hp, _⟩
    · have h2 : (s.step sqrt (Event.confirmSubmit env)).successModal = s.successModal := by
        simp only [ReportForm.step, h]
        rfl
      rw [h2, hbefore] at hafter
      cases hafter
    · exact ⟨env, rfl, hc, p, hp⟩
  | windowClick target =>
    cases target with
    | previewModal =>
      have h : (s.step sqrt (Event.windowClick ClickTarget.previewModal)).successModal =
          s.successModal := rfl
      rw [h, hbefore] at hafter
      cases hafter
    | successModal =>
      have h : (s.step sqrt (Event.windowClick ClickTarget.successModal)).successModal =
          false := rfl
      rw [h] at hafter
      cases hafter
    | other =>
      have h : (s.step sqrt (Event.windowClick ClickTarget.other)).successModal =
          s.successModal := rfl
      rw [h, hbefore] at hafter
      cases hafter

theorem init_rest (sqrt : ℚ → ℚ) (page : PageLoad) :
    (ReportForm.init sqrt page).rest = (page.stored, false, false, [], [], []) := by
  have hfold : ∀ (rs : List Report) (st : ReportForm),
      (rs.foldl (fun st report =>
        { st with map := (st.map.addMarker report.coordinates "existing-report-marker"
            (some (ReportForm.existingReportPopup report))).2 }) st).rest = st.rest := by
    intro rs
    induction rs with
    | nil => intro st; rfl
    | cons r t ih => intro st; rw [List.foldl_cons, ih]; rfl
  have hmid : ∀ st : ReportForm, (ReportForm.addExistingReports st).rest = st.rest := by
    intro st
    unfold ReportForm.addExistingReports
    exact hfold _ st
  unfold ReportForm.init
  cases hc : page.coords <;> by_cases hu : page.currentUser = "" <;>
    simp only [hu, if_true, if_false]
  · rw [hmid]; rfl
  · exact (hmid _).trans rfl
  · exact (hmid _).trans rfl
  · exact (hmid _).trans rfl

theorem init_idle (sqrt : ℚ → ℚ) (page : PageLoad) :
    (ReportForm.init sqrt page).lifecycle = Lifecycle.Idle := by
  rw [lifecycle_idle_iff]
  have hrest := init_rest sqrt page
  have h2 := congrArg (fun r => r.2.1) hrest
  have h3 := congrArg (fun r => r.2.2.1) hrest
  exact ⟨h3, h2⟩

/-- C9: from `Idle`, a preview request or a
form submit moves to `Previewing`, with the preview view shown, if and only if
the five required fields are filled and a location is selected; otherwise the
state stays `Idle`, the preview view stays hidden and exactly one `error`
message is emitted.  From `Previewing`, the edit action moves to `Idle` by hiding
the preview view and changes nothing else, so the form fields and the selected
location are kept.  An event shows the success view only if it is a confirm
action in a state that passes validation. -/
theorem lifecycle_transitions (sqrt : ℚ → ℚ) (s : ReportForm) :
    (s.lifecycle = Lifecycle.Idle →
      ∀ e, e = Event.previewClick ∨ e = Event.formSubmit →
        ((s.step sqrt e).lifecycle = Lifecycle.Previewing ↔
          s.fields.complete ∧ ∃ p, s.selectedLocation = some p) ∧
        ((s.step sqrt e).previewModal = true ↔
          s.fields.complete ∧ ∃ p, s.selectedLocation = some p) ∧
        (¬ (s.fields.complete ∧ ∃ p, s.selectedLocation = some p) →
          (s.step sqrt e).lifecycle = Lifecycle.Idle ∧
          (s.step sqrt e).previewModal = false ∧
          ∃ msg, s.step sqrt e = { s with messages := s.messages ++ [(msg, "error")] })) ∧
    (s.lifecycle = Lifecycle.Previewing →
      (s.step sqrt Event.editReport).lifecycle = Lifecycle.Idle ∧
      (s.step sqrt Event.editReport).previewModal = false ∧
      (s.step sqrt Event.editReport).fields = s.fields ∧
      (s.step sqrt Event.editReport).selectedLocation = s.selectedLocation ∧
      s.step sqrt Event.editReport = { s with previewModal := false }) ∧
    (∀ e, s.successModal = false → (s.step sqrt e).successModal = true →
      ∃ env, e = Event.confirmSubmit env ∧
        s.fields.complete ∧ ∃ p, s.selectedLocation = some p) := by
  refine ⟨?_, ?_, ?_⟩
  · intro hidle e he
    rcases he with he | he <;> subst he <;> exact showPreview_from_idle s hidle
  · intro hprev
    obtain ⟨hs, _⟩ := (lifecycle_previewing_iff s).1 hprev
    refine ⟨?_, rfl, rfl, rfl, rfl⟩
    rw [lifecycle_idle_iff]
    exact ⟨hs, rfl⟩
  · intro e hbefore hafter
    exact step_success_shown sqrt s e hbefore hafter

/-- C9, at a concrete input: the freshly loaded sample page is `Idle` and has no
location selected, so a preview request leaves it `Idle` with the preview view
hidden. -/
theorem lifecycle_transitions_witness :
    sampleIdle.lifecycle = Lifecycle.Idle ∧
    ¬ (sampleIdle.fields.complete ∧ ∃ p, sampleIdle.selectedLocation = some p) ∧
    (sampleIdle.step sqrtApprox Event.previewClick).lifecycle = Lifecycle.Idle ∧
    (sampleIdle.step sqrtApprox Event.previewClick).previewModal = false :=
  have hidle : sampleIdle.lifecycle = Lifecycle.Idle := by decide
  have hinv : ¬ (sampleIdle.fields.complete ∧ ∃ p, sampleIdle.selectedLocation = some p) := by
    rintro ⟨_, p, hp⟩
    have hnone : sampleIdle.selectedLocation = none := by decide
    rw [hnone] at hp
    cases hp
  have h := ((lifecycle_transitions sqrtApprox sampleIdle).1 hidle Event.previewClick
    (Or.inl rfl)).2.2 hinv
  ⟨hidle, hinv, h.1, h.2.1⟩

/-! ## Existing-reports overlay -/

theorem existingReportPopup_rows (r : Report) :
    (ReportForm.existingReportPopup r).rows =
      [("Type:", "undefined"), ("Priority:", r.priority), ("Status:", r.status)] := by
  have h1 : r.prop "type" = JSValue.undefined := by
    unfold Report.prop
    simp
  have h2 : r.prop "priority" = JSValue.string r.priority := by
    unfold Report.prop
    simp
  have h3 : r.prop "status" = JSValue.string r.status := by
    unfold Report.prop
    simp
  simp [ReportForm.existingReportPopup, h1, h2, h3, JSValue.interpolate]

theorem addExistingReports_layers (rs : List Report) (st : ReportForm) :
    (rs.foldl (fun st report =>
        { st with map := (st.map.addMarker report.coordinates "existing-report-marker"
            (some (ReportForm.existingReportPopup report))).2 }) st).map.layers.map
        (fun m => (m.latlng, m.className, m.popup)) =
      st.map.layers.map (fun m => (m.latlng, m.className, m.popup)) ++
        rs.map fun r =>
          (r.coordinates, "existing-report-marker", some (ReportForm.existingReportPopup r)) := by
  induction rs generalizing st with
  | nil => simp
  | cons r rest ih =>
    rw [List.foldl_cons, ih]
    simp [LeafletMap.addMarker]

/-- The overlay drawn at page load (no `coords` parameter): one marker per stored
report, in order, at the stored coordinates, whose popup rows are `Type:` with
the text `undefined`, `Priority:` with the priority and `Status:` with the
status of the report. -/
theorem overlay_markers (sqrt : ℚ → ℚ) (page : PageLoad) (hc : page.coords = none) :
    (ReportForm.init sqrt page).map.layers.map (fun m => (m.latlng, m.popup.map Popup.rows)) =
      (ReportForm.getExistingReports (ReportForm.init sqrt page)).map fun r =>
        (r.coordinates,
          some [("Type:", "undefined"), ("Priority:", r.priority), ("Status:", r.status)]) := by
  have hlayers : (ReportForm.init sqrt page).map.layers.map
      (fun m => (m.latlng, m.className, m.popup)) =
      (match page.stored with | some l => l | none => []).map fun r : Report =>
        (r.coordinates, "existing-report-marker",
          some (ReportForm.existingReportPopup r)) := by
    unfold ReportForm.init ReportForm.addExistingReports
    by_cases hu : page.currentUser = "" <;> simp only [hc, hu, if_true, if_false] <;>
      rw [addExistingReports_layers] <;> rfl
  have hstore : ReportForm.getExistingReports (ReportForm.init sqrt page) =
      (match page.stored with | some l => l | none => []) := by
    have h := congrArg (fun r => r.1) (init_rest sqrt page)
    unfold ReportForm.getExistingReports
    simp only [ReportForm.rest] at h
    rw [h]
  rw [hstore]
  have h2 : (ReportForm.init sqrt page).map.layers.map
      (fun m => (m.latlng, m.popup.map Popup.rows)) =
      ((ReportForm.init sqrt page).map.layers.map
        (fun m => (m.latlng, m.className, m.popup))).map
        (fun t => (t.1, t.2.2.map Popup.rows)) := by
    rw [List.map_map]
    rfl
  rw [h2, hlayers, List.map_map]
  apply List.map_congr_left
  intro r _
  simp [existingReportPopup_rows]

/-- C10 fails on the code: after the sample run has stored a report with damage
type `pothole`, the overlay of the reloaded page draws its marker at the stored
coordinates, and the popup shows the priority and the status, but its `Type:`
row reads `undefined`: the popup template reads `report.type`, a key the stored
report does not have. -/
theorem overlay_popup_type_undefined :
    sampleReload.getExistingReports.map Report.damageType = ["pothole"] ∧
    sampleReload.map.layers.map (fun m => m.latlng) =
      sampleReload.getExistingReports.map Report.coordinates ∧
    sampleReload.map.layers.map (fun m => m.popup.map Popup.rows) =
      [some [("Type:", "undefined"), ("Priority:", "high"), ("Status:", "reported")]] := by
  refine ⟨by decide, rfl, by decide⟩

end RoadMonitor
